import Mathlib

/-!
Verification development for the GraftNetwork Stake Transaction Processor
(`src/cryptonote_core/stake_transaction_processor.cpp`).

Machine integers (`uint64_t`, `size_t`) are embedded as `Nat` with explicit
reduction modulo `2 ^ 64` wherever the C++ arithmetic can wrap.  External
collaborators (blockchain oracle, crypto primitives, extra-field codecs,
committee selector) are fields of a `ProcessorEnv` record of abstract
functions; fallible calls return `Option`.  The two persistent stores
(`StakeTransactionStorage`, `BlockchainBasedList`) are implemented outside the
given source file, so their operations are modelled from the specification;
each such definition is marked `Modelled from the spec:` in its doc comment.
-/

/-- Size of the `uint64_t` value space. -/
def U64 : Nat := 2 ^ 64

/-- Wrapping `uint64_t` subtraction `a - b` (two's complement wrap-around),
as performed by C++ on unsigned 64-bit operands. -/
def sub64 (a b : Nat) : Nat := (a % U64 + (U64 - b % U64)) % U64

/-- Domain parameters from `graft_rta_config.h` / `sample_generator.h` (not
part of the given source file); kept abstract, the theorems quantify over
them. -/
structure GraftConfig where
  STAKE_VALIDATION_PERIOD : Nat
  TRUSTED_RESTAKING_PERIOD : Nat
  STAKE_MIN_UNLOCK_TIME : Nat
  STAKE_MAX_UNLOCK_TIME : Nat
  SUPERNODE_HISTORY_SIZE : Nat
  STAKE_TRANSACTION_PROCESSING_DB_VERSION : Nat
  REQUIRED_BBQS_VOTES : Nat
  REQUIRED_DISQUAL2_VOTES : Nat
deriving DecidableEq

/-- A CryptoNote account address (view and spend public keys), abstracted. -/
structure account_public_address where
  m_view_public_key : Nat
  m_spend_public_key : Nat
deriving DecidableEq

/-- An output target: either a key output or anything else. -/
inductive txout_target where
  | to_key (key : Nat)
  | other
deriving DecidableEq

/-- A transaction output. -/
structure tx_out where
  amount : Nat
  target : txout_target
deriving DecidableEq

/-- An ECDH-encoded (mask, amount) pair of a RingCT output. -/
structure ecdh_tuple where
  mask : Nat
  amount : Nat
deriving DecidableEq

/-- The slice of a CryptoNote transaction read by the processor. -/
structure transaction where
  version : Nat
  unlock_time : Nat
  vout : List tx_out
  ecdhInfo : List ecdh_tuple
  outPk : List Nat
deriving DecidableEq

/-- The stake record carried in a transaction's extra field
(`get_graft_stake_tx_extra_from_extra` output). -/
structure stake_tx_extra where
  supernode_public_id : String
  supernode_public_address : account_public_address
  supernode_signature : Nat
  tx_secret_key : Nat
deriving DecidableEq

/-- A stored stake transaction (`stake_transaction` in
`stake_transaction_storage.h`), fields as used by the processor. -/
structure stake_transaction where
  amount : Nat
  block_height : Nat
  unlock_time : Nat
  hash : Nat
  supernode_public_id : String
  supernode_public_address : account_public_address
  supernode_signature : Nat
  tx_secret_key : Nat
deriving DecidableEq

/-- `stake_transaction::is_valid` (source lines 21-33): the stake counts at
`block_index` iff `block_height + STAKE_VALIDATION_PERIOD <= block_index` and
`block_index < block_height + unlock_time + TRUSTED_RESTAKING_PERIOD`, with
both bounds computed in `uint64_t` (wrap-around) arithmetic. -/
def stake_transaction.is_valid (cfg : GraftConfig) (s : stake_transaction)
    (block_index : Nat) : Bool :=
  let stake_first_valid_block := (s.block_height + cfg.STAKE_VALIDATION_PERIOD) % U64
  let stake_last_valid_block :=
    (s.block_height + s.unlock_time + cfg.TRUSTED_RESTAKING_PERIOD) % U64
  if block_index < stake_first_valid_block then false
  else if stake_last_valid_block ≤ block_index then false
  else true

/-- The fields of a v1 disqualification extra (`tx_extra_graft_disqualification::item`). -/
structure disqualification_item where
  block_height : Nat
  block_hash : Nat
  id : Nat
deriving DecidableEq

/-- One signer of a disqualification extra. -/
structure signer_item where
  signer_id : Nat
  sign : Nat
deriving DecidableEq

/-- A decoded v1 disqualification extra. -/
structure tx_extra_graft_disqualification where
  item : disqualification_item
  signers : List signer_item
deriving DecidableEq

/-- The fields of a v2 disqualification extra: a payment id and a set of
disqualified ids. -/
structure disqualification2_item where
  block_height : Nat
  block_hash : Nat
  payment_id : Nat
  ids : List Nat
deriving DecidableEq

/-- A decoded v2 disqualification extra. -/
structure tx_extra_graft_disqualification2 where
  item : disqualification2_item
  signers : List signer_item
deriving DecidableEq

/-- A member of a BBL tier: hex-encoded supernode id plus its stake. -/
structure tier_entry where
  supernode_public_id : String
  stake_amount : Nat
deriving DecidableEq

/-- One BBL history entry: the tier arrays computed for one block.
Modelled from the spec: (block_index, block_hash, tier_array). -/
structure bbl_snapshot where
  block_index : Nat
  block_hash : Nat
  tiers : List (List tier_entry)
deriving DecidableEq

/-- Modelled from the spec: the `BlockchainBasedList` state
(`blockchain_based_list.h/.cpp` are not part of the given source): the tip
block index and the bounded history of snapshots, newest first. -/
structure BlockchainBasedList where
  block_height : Nat
  history : List bbl_snapshot
deriving DecidableEq

/-- Modelled from the spec: `BlockchainBasedList::history_depth()` — the
number of retained snapshots (the history is kept trimmed to
`SUPERNODE_HISTORY_SIZE`, so its length is the usable depth). -/
def BlockchainBasedList.history_depth (l : BlockchainBasedList) : Nat :=
  l.history.length

/-- Modelled from the spec: `BlockchainBasedList::tiers(depth)` — the snapshot
`depth` blocks below the tip (0 = tip); callers guarantee
`depth < history_depth()`. -/
def BlockchainBasedList.tiers (l : BlockchainBasedList) (depth : Nat) :
    List (List tier_entry) :=
  (l.history.getD depth ⟨0, 0, []⟩).tiers

/-- Modelled from the spec: `BlockchainBasedList::remove_latest_block()` —
pop the tip snapshot (the tip index moves down by one). -/
def BlockchainBasedList.remove_latest_block (l : BlockchainBasedList) :
    BlockchainBasedList :=
  { block_height := l.block_height - 1, history := l.history.tail }

/-- A stored v1 disqualification (`disqualification` in
`stake_transaction_storage.h`): the serialized extra, the block the
transaction appeared in, and the disqualified id. -/
structure disqualification where
  blob : tx_extra_graft_disqualification
  block_index : Nat
  id : Nat
deriving DecidableEq

/-- A stored v2 disqualification (`disqualification2_storage_item`): the
serialized extra and the block the transaction appeared in. -/
structure disqualification2_storage_item where
  blob : tx_extra_graft_disqualification2
  block_index : Nat
deriving DecidableEq

/-- Modelled from the spec: the `StakeTransactionStorage` state
(`stake_transaction_storage.h/.cpp` are not part of the given source):
accepted stake transactions, the two disqualification logs, the processed
chain (newest first), the lazily rebuilt per-block supernode-stake index
(`none` after `clear_supernode_stakes`), and the configured first block
number reported while the processed chain is empty. -/
structure StakeTransactionStorage where
  first_block_number : Nat
  stake_txs : List stake_transaction
  disquals : List disqualification
  disquals2 : List disqualification2_storage_item
  processed_chain : List (Nat × Nat)
  supernode_stakes : Option (Nat × List (String × Nat))
deriving DecidableEq

namespace StakeTransactionStorage

/-- Modelled from the spec: `has_last_processed_block()`. -/
def has_last_processed_block (s : StakeTransactionStorage) : Bool :=
  !s.processed_chain.isEmpty

/-- Modelled from the spec: `get_last_processed_block_index()` — the index of
the processed-chain tip, or the configured first block number when empty. -/
def get_last_processed_block_index (s : StakeTransactionStorage) : Nat :=
  match s.processed_chain with
  | [] => s.first_block_number
  | (i, _) :: _ => i

/-- Modelled from the spec: `get_last_processed_block_hash()` — the hash of
the processed-chain tip. -/
def get_last_processed_block_hash (s : StakeTransactionStorage) : Nat :=
  (s.processed_chain.headD (0, 0)).2

/-- Modelled from the spec: `get_tx_count()`. -/
def get_tx_count (s : StakeTransactionStorage) : Nat := s.stake_txs.length

/-- Modelled from the spec: `add_tx` — append an accepted stake transaction,
ignoring a second insert with the same transaction hash. -/
def add_tx (s : StakeTransactionStorage) (tx : stake_transaction) :
    StakeTransactionStorage :=
  if s.stake_txs.any (fun t => t.hash = tx.hash) then s
  else { s with stake_txs := s.stake_txs ++ [tx] }

/-- Modelled from the spec: `add_disquals` — append a batch of v1
disqualifications. -/
def add_disquals (s : StakeTransactionStorage) (ds : List disqualification) :
    StakeTransactionStorage :=
  { s with disquals := s.disquals ++ ds }

/-- Modelled from the spec: `add_disquals2` — append a batch of v2
disqualifications. -/
def add_disquals2 (s : StakeTransactionStorage)
    (ds : List disqualification2_storage_item) : StakeTransactionStorage :=
  { s with disquals2 := s.disquals2 ++ ds }

/-- Modelled from the spec: `add_last_processed_block(idx, hash)` — push onto
the processed chain. -/
def add_last_processed_block (s : StakeTransactionStorage) (idx hash : Nat) :
    StakeTransactionStorage :=
  { s with processed_chain := (idx, hash) :: s.processed_chain }

/-- Modelled from the spec: `remove_last_processed_block()` — pop the
processed-chain tip and drop every stake transaction and v1/v2
disqualification recorded at the popped block index. -/
def remove_last_processed_block (s : StakeTransactionStorage) :
    StakeTransactionStorage :=
  match s.processed_chain with
  | [] => s
  | (i, _) :: rest =>
    { s with
      processed_chain := rest
      stake_txs := s.stake_txs.filter (fun t => t.block_height ≠ i)
      disquals := s.disquals.filter (fun d => d.block_index ≠ i)
      disquals2 := s.disquals2.filter (fun d => d.block_index ≠ i) }

/-- Modelled from the spec: `clear_supernode_stakes()` — drop the per-block
stake index. -/
def clear_supernode_stakes (s : StakeTransactionStorage) :
    StakeTransactionStorage :=
  { s with supernode_stakes := none }

/-- Helper for `update_supernode_stakes`: add `amount` to the entry of `id`
in an association list. -/
def add_stake_amount (m : List (String × Nat)) (id : String) (amount : Nat) :
    List (String × Nat) :=
  match m with
  | [] => [(id, amount)]
  | (k, v) :: rest =>
    if k = id then (k, (v + amount) % U64) :: rest
    else (k, v) :: add_stake_amount rest id amount

/-- Modelled from the spec: `update_supernode_stakes(block_index)` — rebuild
the stake index at `block_index` by summing, per supernode id, the amounts of
all stake transactions valid at `block_index`. -/
def update_supernode_stakes (cfg : GraftConfig) (s : StakeTransactionStorage)
    (block_index : Nat) : StakeTransactionStorage :=
  { s with
    supernode_stakes := some (block_index,
      s.stake_txs.foldl
        (fun m t =>
          if t.is_valid cfg block_index then
            add_stake_amount m t.supernode_public_id t.amount
          else m)
        []) }

end StakeTransactionStorage

/-- The slice of a block read by the processor: the hashes of its
transactions. -/
structure cblock where
  tx_hashes : List Nat
deriving DecidableEq

/-- The external collaborators of the processor (blockchain oracle, crypto
primitives, extra-field codecs, committee selector, BBL snapshot builder),
as abstract functions.  Fallible calls return `Option`; in particular
`get_block_id_by_height` returns `none` where the C++ oracle throws
`BLOCK_DNE`. -/
structure ProcessorEnv where
  get_block_id_by_height : Nat → Option Nat
  get_block_by_hash : Nat → Option cblock
  get_transactions : List Nat → Option (List transaction × List Nat)
  hard_fork_version : Nat → Nat
  get_account_address_as_str : account_public_address → String
  cn_fast_hash : String → Nat
  check_signature : Nat → Nat → Nat → Bool
  hex_to_pod : String → Option Nat
  check_key : Nat → Bool
  get_graft_stake_tx_extra_from_extra : transaction → Option stake_tx_extra
  graft_check_disqualification : transaction → Option tx_extra_graft_disqualification
  graft_get_disqualification : transaction → Option tx_extra_graft_disqualification
  graft_check_disqualification2 : transaction → Option tx_extra_graft_disqualification2
  graft_get_disqualification2 : transaction → Option tx_extra_graft_disqualification2
  get_transaction_prefix_hash : transaction → Nat
  generate_key_derivation : Nat → Nat → Option Nat
  derive_public_key : Nat → Nat → Nat → Nat
  derivation_to_scalar : Nat → Nat → Nat
  ecdhDecode : ecdh_tuple → Nat → ecdh_tuple
  addKeys2 : Nat → Nat → Nat
  h2d : Nat → Nat
  select_BBQS_QCL : Nat → List (List (Nat × Nat)) →
    List (Nat × Nat) × List (Nat × Nat)
  select_AuthSample : Nat → List (List (Nat × Nat)) → List (Nat × Nat)
  build_tier_snapshot : Nat → StakeTransactionStorage → List (List tier_entry)
  on_blockchain_based_list_update : Nat → Nat → List (List tier_entry) → Bool

/-- `makeBBLindexes` (source lines 156-167): per tier `t`, the list of
(tier, index) pairs enumerating that tier. -/
def makeBBLindexes (bbl_tiers : List (List tier_entry)) :
    List (List (Nat × Nat)) :=
  bbl_tiers.enum.map (fun p => (List.range p.2.length).map (fun i => (p.1, i)))

/-- `fromIndexes` (source lines 169-184): resolve (tier, index) pairs to
public keys by hex-decoding the stored `supernode_public_id` (the source
asserts the decode succeeds; a poisoned entry resolves to the default key). -/
def fromIndexes (env : ProcessorEnv) (bbl_tiers : List (List tier_entry))
    (idxs : List (Nat × Nat)) : List Nat :=
  idxs.map (fun ti =>
    (env.hex_to_pod (((bbl_tiers.getD ti.1 []).getD ti.2 ⟨"", 0⟩).supernode_public_id)).getD 0)

/-- `StakeTransactionProcessor::check_disqualification_transaction`
(source lines 188-261), returning `none` where a `BLOCK_DNE` exception from
the oracle would propagate. -/
def check_disqualification_transaction (env : ProcessorEnv) (cfg : GraftConfig)
    (bbl : BlockchainBasedList) (tx : transaction) : Option Bool :=
  match env.graft_check_disqualification tx with
  | none => some false
  | some disq_extra =>
    match env.get_block_id_by_height disq_extra.item.block_height with
    | none => none
    | some b_hash =>
      if b_hash ≠ disq_extra.item.block_hash then some false
      else
        let depth := sub64 bbl.block_height disq_extra.item.block_height
        if bbl.history_depth ≤ depth then some false
        else if disq_extra.signers.length < cfg.REQUIRED_BBQS_VOTES then some false
        else
          let tiers := bbl.tiers depth
          let bbl_idxs := makeBBLindexes tiers
          let sel := env.select_BBQS_QCL disq_extra.item.block_hash bbl_idxs
          let bbqs := fromIndexes env tiers sel.1
          let qcl := fromIndexes env tiers sel.2
          if ¬ disq_extra.item.id ∈ qcl then some false
          else if disq_extra.signers.all (fun si => decide (si.signer_id ∈ bbqs)) then
            some true
          else some false

/-- `StakeTransactionProcessor::check_disqualification2_transaction`
(source lines 263-338). -/
def check_disqualification2_transaction (env : ProcessorEnv) (cfg : GraftConfig)
    (bbl : BlockchainBasedList) (tx : transaction) : Option Bool :=
  match env.graft_check_disqualification2 tx with
  | none => some false
  | some disq_extra =>
    match env.get_block_id_by_height disq_extra.item.block_height with
    | none => none
    | some b_hash =>
      if b_hash ≠ disq_extra.item.block_hash then some false
      else
        let depth := sub64 bbl.block_height disq_extra.item.block_height
        if bbl.history_depth ≤ depth then some false
        else if disq_extra.signers.length < cfg.REQUIRED_DISQUAL2_VOTES then some false
        else
          let tiers := bbl.tiers depth
          let bbl_idxs := makeBBLindexes tiers
          let auths := fromIndexes env tiers
            (env.select_AuthSample disq_extra.item.payment_id bbl_idxs)
          if ¬ disq_extra.item.ids.all (fun id => decide (id ∈ auths)) then some false
          else if disq_extra.signers.all (fun si => decide (si.signer_id ∈ auths)) then
            some true
          else some false

/-- `get_transaction_amount` (source lines 55-118): sum, over the outputs of
`tx` that belong to `address` under `tx_key`, of the plaintext amount
(`version = 1`) or the ECDH-decoded amount whose commitment matches
`outPk[n].mask` (0 on mismatch or crypto failure).  The accumulation is
`uint64_t` addition. -/
def get_transaction_amount (env : ProcessorEnv) (tx : transaction)
    (address : account_public_address) (tx_key : Nat) : Nat :=
  match env.generate_key_derivation address.m_view_public_key tx_key with
  | none => 0
  | some derivation =>
    (List.range tx.vout.length).foldl
      (fun received n =>
        match (tx.vout.getD n ⟨0, .other⟩).target with
        | .other => received
        | .to_key key =>
          let pubkey := env.derive_public_key derivation n address.m_spend_public_key
          if pubkey = key then
            let amount :=
              if tx.version = 1 then (tx.vout.getD n ⟨0, .other⟩).amount
              else
                match env.generate_key_derivation address.m_view_public_key tx_key with
                | none => 0
                | some derivation2 =>
                  let scalar1 := env.derivation_to_scalar derivation2 n
                  let ecdh_info := env.ecdhDecode (tx.ecdhInfo.getD n ⟨0, 0⟩) scalar1
                  let C := tx.outPk.getD n 0
                  let Ctmp := env.addKeys2 ecdh_info.mask ecdh_info.amount
                  if C = Ctmp then env.h2d ecdh_info.amount else 0
            (received + amount) % U64
          else received)
      0

/-- The stake-transaction arm of the per-transaction loop of
`StakeTransactionProcessor::process_block_stake_transaction`
(source lines 429-496): returns the stake record to append to the storage,
or `none` when the transaction is skipped.  The adjusted unlock time
`tx.unlock_time - block_index` is the code's wrapping `uint64_t`
subtraction. -/
def process_stake_tx (env : ProcessorEnv) (cfg : GraftConfig)
    (block_index : Nat) (tx : transaction) : Option stake_transaction :=
  if tx.version = 123 ∨ tx.version = 124 then none
  else
    match env.get_graft_stake_tx_extra_from_extra tx with
    | none => none
    | some ex =>
      match env.hex_to_pod ex.supernode_public_id with
      | none => none
      | some W =>
        if ¬ env.check_key W then none
        else
          let addr_str := env.get_account_address_as_str ex.supernode_public_address
          let data := addr_str ++ ":" ++ ex.supernode_public_id
          let h := env.cn_fast_hash data
          if ¬ env.check_signature h W ex.supernode_signature then none
          else
            let unlock_time := sub64 tx.unlock_time block_index
            if unlock_time < cfg.STAKE_MIN_UNLOCK_TIME then none
            else if cfg.STAKE_MAX_UNLOCK_TIME < unlock_time then none
            else
              let amount := get_transaction_amount env tx
                ex.supernode_public_address ex.tx_secret_key
              if amount = 0 then none
              else
                some { amount := amount
                       block_height := block_index
                       hash := env.get_transaction_prefix_hash tx
                       unlock_time := unlock_time
                       supernode_public_id := ex.supernode_public_id
                       supernode_public_address := ex.supernode_public_address
                       supernode_signature := ex.supernode_signature
                       tx_secret_key := ex.tx_secret_key }

/-- One iteration of the per-transaction loop of
`process_block_stake_transaction` (source lines 423-509): version 123 and
124 transactions are collected into the v1/v2 disqualification batches,
anything else is treated as a candidate stake transaction and appended to
the storage when it validates. -/
def process_one_tx (env : ProcessorEnv) (cfg : GraftConfig) (block_index : Nat)
    (acc : StakeTransactionStorage × List disqualification ×
      List disqualification2_storage_item) (tx : transaction) :
    StakeTransactionStorage × List disqualification ×
      List disqualification2_storage_item :=
  if tx.version = 123 then
    match env.graft_get_disqualification tx with
    | none => acc
    | some e => (acc.1, acc.2.1 ++ [⟨e, block_index, e.item.id⟩], acc.2.2)
  else if tx.version = 124 then
    match env.graft_get_disqualification2 tx with
    | none => acc
    | some e => (acc.1, acc.2.1, acc.2.2 ++ [⟨e, block_index⟩])
  else
    match process_stake_tx env cfg block_index tx with
    | none => acc
    | some st => (acc.1.add_tx st, acc.2.1, acc.2.2)

/-- `StakeTransactionProcessor::process_block_stake_transaction`
(source lines 392-527), persistence side effects elided: skip blocks at or
below the last processed index; above the hard-fork threshold fetch the
block's transactions (a failed fetch returns without recording the block;
missed hashes are only logged), process each transaction, commit the
disqualification batches, rebuild the supernode stakes, and finally record
the block as processed. -/
def process_block_stake_transaction (env : ProcessorEnv) (cfg : GraftConfig)
    (block_index : Nat) (blk : cblock) (block_hash : Nat)
    (s : StakeTransactionStorage) : StakeTransactionStorage :=
  if block_index ≤ s.get_last_processed_block_index then s
  else if cfg.STAKE_TRANSACTION_PROCESSING_DB_VERSION ≤
      env.hard_fork_version block_index then
    match env.get_transactions blk.tx_hashes with
    | none => s
    | some (txs, _missed) =>
      let r := txs.foldl (process_one_tx env cfg block_index) (s, [], [])
      let s1 := (r.1.add_disquals r.2.1).add_disquals2 r.2.2
      let s2 := s1.update_supernode_stakes cfg block_index
      s2.add_last_processed_block block_index block_hash
  else s.add_last_processed_block block_index block_hash

/-- Modelled from the spec: `BlockchainBasedList::apply_block`
(`blockchain_based_list.cpp` is not part of the given source).  Per the spec
the new tip snapshot is a deterministic function of the storage at the block
(abstracted as `env.build_tier_snapshot`), pushed onto the history, which is
trimmed to `SUPERNODE_HISTORY_SIZE`; a block at or below the current tip is
not re-applied (required for the spec's idempotence and no-op guarantees). -/
def BlockchainBasedList.apply_block (env : ProcessorEnv) (cfg : GraftConfig)
    (l : BlockchainBasedList) (block_index block_hash : Nat)
    (s : StakeTransactionStorage) : BlockchainBasedList :=
  if block_index ≤ l.block_height then l
  else
    { block_height := block_index
      history := (⟨block_index, block_hash, env.build_tier_snapshot block_index s⟩ ::
        l.history).take cfg.SUPERNODE_HISTORY_SIZE }

/-- `StakeTransactionProcessor::process_block_blockchain_based_list`
(source lines 529-542), persistence side effects elided: unconditionally
apply the block to the BBL. -/
def process_block_blockchain_based_list (env : ProcessorEnv)
    (cfg : GraftConfig) (block_index block_hash : Nat)
    (s : StakeTransactionStorage) (l : BlockchainBasedList) :
    BlockchainBasedList :=
  l.apply_block env cfg block_index block_hash s

/-- `StakeTransactionProcessor::process_block` (source lines 544-548): the
stake-transaction pass followed by the BBL pass (which reads the already
updated storage). -/
def process_block (env : ProcessorEnv) (cfg : GraftConfig) (block_index : Nat)
    (blk : cblock) (block_hash : Nat)
    (st : StakeTransactionStorage × BlockchainBasedList) :
    StakeTransactionStorage × BlockchainBasedList :=
  let s := process_block_stake_transaction env cfg block_index blk block_hash st.1
  (s, process_block_blockchain_based_list env cfg block_index block_hash s st.2)

/-- Outcome of the rollback loop of `synchronize`: either the loop stopped
normally (tail agrees or the chain emptied) or the oracle signalled
`BLOCK_DNE` while probing and `synchronize` returns. -/
inductive SyncOutcome where
  | done (s : StakeTransactionStorage) (l : BlockchainBasedList)
  | dne (s : StakeTransactionStorage) (l : BlockchainBasedList)
deriving DecidableEq

/-- One unroll iteration of the rollback loop (source lines 592-600): pop the
storage tip, clear the supernode-stake index iff the removal deleted stake
transactions, and pop the BBL tip iff its height equals the popped index. -/
def unroll_step (s : StakeTransactionStorage) (l : BlockchainBasedList) :
    StakeTransactionStorage × BlockchainBasedList :=
  let lpi := s.get_last_processed_block_index
  let s1 := s.remove_last_processed_block
  let s2 := if s1.get_tx_count ≠ s.get_tx_count then s1.clear_supernode_stakes else s1
  let l1 := if l.block_height = lpi then l.remove_latest_block else l
  (s2, l1)

/-- The rollback loop of `StakeTransactionProcessor::synchronize`
(source lines 570-601): while the storage has a last processed block, stop
when its index is below the chain height and its hash matches the oracle's;
return on `BLOCK_DNE`; otherwise unroll one block. -/
def rollback_loop (env : ProcessorEnv) (height : Nat)
    (s : StakeTransactionStorage) (l : BlockchainBasedList) : SyncOutcome :=
  match hc : s.processed_chain with
  | [] => .done s l
  | (lpi, lph) :: _rest =>
    if lpi < height then
      match env.get_block_id_by_height lpi with
      | none => .dne s l
      | some bh =>
        if bh = lph then .done s l
        else rollback_loop env height (unroll_step s l).1 (unroll_step s l).2
    else rollback_loop env height (unroll_step s l).1 (unroll_step s l).2
termination_by s.processed_chain.length
decreasing_by
  all_goals
    simp only [unroll_step, StakeTransactionStorage.remove_last_processed_block,
      StakeTransactionStorage.clear_supernode_stakes, hc]
    split_ifs <;> simp [hc] <;> omega

/-- `MAX_ITERATIONS_COUNT` (source line 611). -/
def MAX_ITERATIONS_COUNT : Nat := 10000

/-- The upper bound of the forward-apply loop (source lines 613-617): the
chain height, capped at `first + MAX_ITERATIONS_COUNT` when the `uint64_t`
distance to the height exceeds `MAX_ITERATIONS_COUNT`. -/
def last_block_index_for_sync (height first : Nat) : Nat :=
  if MAX_ITERATIONS_COUNT < sub64 height first then first + MAX_ITERATIONS_COUNT
  else height

/-- The forward-apply loop of `synchronize` (source lines 619-642): walk the
block indices from `i` (exclusive of `stop`), fetching each block's hash and
body and processing it; `BLOCK_DNE` (a `none` hash) breaks the loop, and a
missing block body raises an error that ends the pass.  Returns the final
state and the number of blocks processed. -/
def forward_loop (env : ProcessorEnv) (cfg : GraftConfig) (i stop : Nat)
    (st : StakeTransactionStorage × BlockchainBasedList) :
    (StakeTransactionStorage × BlockchainBasedList) × Nat :=
  if h : i < stop then
    match env.get_block_id_by_height i with
    | none => (st, 0)
    | some bh =>
      match env.get_block_by_hash bh with
      | none => (st, 0)
      | some blk =>
        let st1 := process_block env cfg i blk bh st
        let r := forward_loop env cfg (i + 1) stop st1
        (r.1, r.2 + 1)
  else (st, 0)
termination_by stop - i
decreasing_by omega

/-- `StakeTransactionProcessor::synchronize` (source lines 550-666),
persistence and observer side effects elided: below height 1 or the
hard-fork threshold do nothing; otherwise run the rollback loop (returning
immediately on `BLOCK_DNE`) and then the forward-apply loop from
`min(STS tip + 1, BBL tip + 1)`. -/
def synchronize_model (env : ProcessorEnv) (cfg : GraftConfig) (height : Nat)
    (s : StakeTransactionStorage) (l : BlockchainBasedList) :
    StakeTransactionStorage × BlockchainBasedList :=
  if height = 0 ∨ env.hard_fork_version (height - 1) <
      cfg.STAKE_TRANSACTION_PROCESSING_DB_VERSION then (s, l)
  else
    match rollback_loop env height s l with
    | .dne s1 l1 => (s1, l1)
    | .done s1 l1 =>
      let first0 := s1.get_last_processed_block_index + 1
      let first := if l1.block_height + 1 < first0 then l1.block_height + 1 else first0
      (forward_loop env cfg first (last_block_index_for_sync height first) (s1, l1)).1

/-- `StakeTransactionProcessor::invoke_update_stakes_handler` together with
its `_impl` (source lines 674-702), as a function of the Boolean facts it
depends on: whether a handler is registered, whether the storage exists, and
whether the handler returns without throwing.  Result: (handler called,
new value of the stakes-need-update flag). -/
def invoke_update_stakes_handler (handler_set storage_present handler_ok
    flag force : Bool) : Bool × Bool :=
  if handler_set = false then (false, flag)
  else if flag = false ∧ force = false then (false, flag)
  else if storage_present = false then (false, flag)
  else if handler_ok then (true, false)
  else (true, flag)

/-- The emission loop of
`invoke_update_blockchain_based_list_handler_impl` (source lines 728-734):
emit one observer call per depth, stopping at the first `BLOCK_DNE` or
handler exception.  Returns (completed without exception, number of handler
calls made). -/
def bbl_update_go (env : ProcessorEnv) (l : BlockchainBasedList) :
    Nat → Nat → Bool × Nat
  | _, 0 => (true, 0)
  | i, n + 1 =>
    match env.get_block_id_by_height (l.block_height - i) with
    | none => (false, 0)
    | some bh =>
      if env.on_blockchain_based_list_update (l.block_height - i) bh (l.tiers i) then
        let r := bbl_update_go env l (i + 1) n
        (r.1, r.2 + 1)
      else (false, 1)

/-- `invoke_update_blockchain_based_list_handler_impl` (source lines
710-742): skip when the BBL is absent or empty; clamp the depth to
`history_depth()` and `SUPERNODE_HISTORY_SIZE`; run the emission loop; clear
the need-update flag only when the loop completed without an exception.
Returns (new flag, handler calls, loop completed). -/
def invoke_update_blockchain_based_list_handler_impl (env : ProcessorEnv)
    (cfg : GraftConfig) (l : Option BlockchainBasedList) (depth : Nat)
    (flag : Bool) : Bool × Nat × Bool :=
  match l with
  | none => (flag, 0, false)
  | some l =>
    if l.block_height = 0 then (flag, 0, false)
    else
      let d1 := if l.history_depth < depth then l.history_depth else depth
      let d2 := if cfg.SUPERNODE_HISTORY_SIZE < d1 then cfg.SUPERNODE_HISTORY_SIZE else d1
      let r := bbl_update_go env l 0 d2
      (if r.1 then false else flag, r.2, r.1)

/-- `invoke_update_blockchain_based_list_handler` (source lines 744-758):
no-op without a registered handler; `depth > 1` forces the update; dedupe on
the need-update flag unless forced.  Returns (new flag, handler calls, loop
completed). -/
def invoke_update_blockchain_based_list_handler (env : ProcessorEnv)
    (cfg : GraftConfig) (handler_set : Bool) (l : Option BlockchainBasedList)
    (force : Bool) (depth : Nat) (flag : Bool) : Bool × Nat × Bool :=
  if handler_set = false then (flag, 0, false)
  else
    let force1 := if 1 < depth then true else force
    if flag = false ∧ force1 = false then (flag, 0, false)
    else invoke_update_blockchain_based_list_handler_impl env cfg l depth flag

/-- A sample configuration used by concrete witnesses (values as in the
GraftNetwork defaults; the theorems themselves quantify over the config). -/
def cfg0 : GraftConfig :=
  { STAKE_VALIDATION_PERIOD := 6
    TRUSTED_RESTAKING_PERIOD := 6
    STAKE_MIN_UNLOCK_TIME := 5
    STAKE_MAX_UNLOCK_TIME := 5000
    SUPERNODE_HISTORY_SIZE := 100
    STAKE_TRANSACTION_PROCESSING_DB_VERSION := 13
    REQUIRED_BBQS_VOTES := 6
    REQUIRED_DISQUAL2_VOTES := 5 }

/-- A stake transaction whose `block_height` sits at the top of the
`uint64_t` range, exercising the wrap-around of
`block_height + STAKE_VALIDATION_PERIOD`. -/
def wrap_stake_tx : stake_transaction :=
  { amount := 1000
    block_height := U64 - 1
    unlock_time := 100
    hash := 0
    supernode_public_id := "id"
    supernode_public_address := ⟨1, 2⟩
    supernode_signature := 0
    tx_secret_key := 0 }

/-- A trivial environment for concrete witnesses: every fallible call fails,
every check passes. -/
def env0 : ProcessorEnv :=
  { get_block_id_by_height := fun _ => none
    get_block_by_hash := fun _ => none
    get_transactions := fun _ => none
    hard_fork_version := fun _ => 13
    get_account_address_as_str := fun _ => "A"
    cn_fast_hash := fun _ => 99
    check_signature := fun _ _ _ => true
    hex_to_pod := fun _ => some 42
    check_key := fun _ => true
    get_graft_stake_tx_extra_from_extra := fun _ => none
    graft_check_disqualification := fun _ => none
    graft_get_disqualification := fun _ => none
    graft_check_disqualification2 := fun _ => none
    graft_get_disqualification2 := fun _ => none
    get_transaction_prefix_hash := fun _ => 5
    generate_key_derivation := fun _ _ => some 3
    derive_public_key := fun _ _ _ => 4
    derivation_to_scalar := fun _ _ => 6
    ecdhDecode := fun t _ => t
    addKeys2 := fun _ _ => 0
    h2d := fun a => a
    select_BBQS_QCL := fun _ _ => ([], [])
    select_AuthSample := fun _ _ => []
    build_tier_snapshot := fun _ _ => []
    on_blockchain_based_list_update := fun _ _ _ => true }

/-- A concrete stake extra used by witnesses. -/
def ex0 : stake_tx_extra :=
  { supernode_public_id := "id"
    supernode_public_address := ⟨1, 2⟩
    supernode_signature := 11
    tx_secret_key := 22 }

/-- A concrete version-1 transaction with one output of 1000 owned by the
staker, unlocking 10 blocks after block 100. -/
def tx0 : transaction :=
  { version := 1
    unlock_time := 110
    vout := [⟨1000, .to_key 4⟩]
    ecdhInfo := []
    outPk := [] }

/-- An environment under which `tx0` validates as a stake transaction. -/
def env1 : ProcessorEnv :=
  { env0 with get_graft_stake_tx_extra_from_extra := fun _ => some ex0 }

/-- The stake record `tx0` produces at block 100 under `env1`. -/
def st0 : stake_transaction :=
  { amount := 1000
    block_height := 100
    unlock_time := 10
    hash := 5
    supernode_public_id := "id"
    supernode_public_address := ⟨1, 2⟩
    supernode_signature := 11
    tx_secret_key := 22 }

/-- A concrete storage whose last processed block is (5, 77). -/
def sts0 : StakeTransactionStorage :=
  { first_block_number := 0
    stake_txs := []
    disquals := []
    disquals2 := []
    processed_chain := [(5, 77)]
    supernode_stakes := none }

/-- A concrete BBL whose tip is block 2 (lagging behind `sts0`). -/
def bbl0 : BlockchainBasedList :=
  { block_height := 2
    history := [⟨2, 20, []⟩] }

/-- A concrete BBL whose tip is block 5 (level with `sts0`). -/
def bbl1 : BlockchainBasedList :=
  { block_height := 5
    history := [⟨5, 50, []⟩] }

/-- A concrete block body with no transactions. -/
def blk0 : cblock := { tx_hashes := [] }

/-- C1: a v1 disqualification transaction passes
`check_disqualification_transaction` iff its extra decodes as a v1 record,
the chain hash at `disq.block_height` equals `disq.block_hash`, the depth
`BBL.block_height() - disq.block_height` (computed with `size_t` wrap) is
strictly less than `BBL.history_depth()`, there are at least
`REQUIRED_BBQS_VOTES` signers, the disqualified id is in the selected QCL and
every signer id is in the selected BBQS. -/
theorem check_disqualification_transaction_iff (env : ProcessorEnv)
    (cfg : GraftConfig) (bbl : BlockchainBasedList) (tx : transaction) :
    check_disqualification_transaction env cfg bbl tx = some true ↔
    ∃ d, env.graft_check_disqualification tx = some d ∧
      env.get_block_id_by_height d.item.block_height = some d.item.block_hash ∧
      sub64 bbl.block_height d.item.block_height < bbl.history_depth ∧
      cfg.REQUIRED_BBQS_VOTES ≤ d.signers.length ∧
      d.item.id ∈ fromIndexes env
        (bbl.tiers (sub64 bbl.block_height d.item.block_height))
        (env.select_BBQS_QCL d.item.block_hash
          (makeBBLindexes (bbl.tiers (sub64 bbl.block_height d.item.block_height)))).2 ∧
      ∀ si ∈ d.signers, si.signer_id ∈ fromIndexes env
        (bbl.tiers (sub64 bbl.block_height d.item.block_height))
        (env.select_BBQS_QCL d.item.block_hash
          (makeBBLindexes (bbl.tiers (sub64 bbl.block_height d.item.block_height)))).1 := by
  unfold check_disqualification_transaction
  cases hd : env.graft_check_disqualification tx with
  | none => simp
  | some d =>
    simp only [Option.some.injEq, exists_eq_left']
    cases ho : env.get_block_id_by_height d.item.block_height with
    | none => simp
    | some bh =>
      by_cases hbh : bh = d.item.block_hash
      · subst hbh
        simp only [ne_eq, not_true_eq_false, if_false, Option.some.injEq, true_and,
          not_false_eq_true, if_true]
        split_ifs with h1 h2 h3 h4
        · exact iff_of_false (by simp) (by rintro ⟨hdep, -⟩; omega)
        · exact iff_of_false (by simp) (by rintro ⟨-, hv, -⟩; omega)
        · refine iff_of_true rfl ⟨by omega, by omega, h3, ?_⟩
          intro si hsi
          simpa using List.all_eq_true.mp h4 si hsi
        · refine iff_of_false (by simp) ?_
          rintro ⟨-, -, -, hall⟩
          exact h4 (List.all_eq_true.mpr fun si hsi => by simpa using hall si hsi)
        · exact iff_of_false (by simp) (by rintro ⟨-, -, hm, -⟩; exact h3 hm)
      · simp [hbh]

/-- C7: a v2 disqualification transaction passes
`check_disqualification2_transaction` iff its extra decodes as a v2 record,
the chain hash at `disq.block_height` equals `disq.block_hash`, the depth is
within `history_depth()`, there are at least `REQUIRED_DISQUAL2_VOTES`
signers, every disqualified id is in the selected AuthSample and every signer
id is in the selected AuthSample. -/
theorem check_disqualification2_transaction_iff (env : ProcessorEnv)
    (cfg : GraftConfig) (bbl : BlockchainBasedList) (tx : transaction) :
    check_disqualification2_transaction env cfg bbl tx = some true ↔
    ∃ d, env.graft_check_disqualification2 tx = some d ∧
      env.get_block_id_by_height d.item.block_height = some d.item.block_hash ∧
      sub64 bbl.block_height d.item.block_height < bbl.history_depth ∧
      cfg.REQUIRED_DISQUAL2_VOTES ≤ d.signers.length ∧
      (∀ id ∈ d.item.ids, id ∈ fromIndexes env
        (bbl.tiers (sub64 bbl.block_height d.item.block_height))
        (env.select_AuthSample d.item.payment_id
          (makeBBLindexes (bbl.tiers (sub64 bbl.block_height d.item.block_height))))) ∧
      ∀ si ∈ d.signers, si.signer_id ∈ fromIndexes env
        (bbl.tiers (sub64 bbl.block_height d.item.block_height))
        (env.select_AuthSample d.item.payment_id
          (makeBBLindexes (bbl.tiers (sub64 bbl.block_height d.item.block_height)))) := by
  unfold check_disqualification2_transaction
  cases hd : env.graft_check_disqualification2 tx with
  | none => simp
  | some d =>
    simp only [Option.some.injEq, exists_eq_left']
    cases ho : env.get_block_id_by_height d.item.block_height with
    | none => simp
    | some bh =>
      by_cases hbh : bh = d.item.block_hash
      · subst hbh
        simp only [ne_eq, not_true_eq_false, if_false, Option.some.injEq, true_and,
          not_false_eq_true, if_true]
        split_ifs with h1 h2 h3 h4
        · exact iff_of_false (by simp) (by rintro ⟨hdep, -⟩; omega)
        · exact iff_of_false (by simp) (by rintro ⟨-, hv, -⟩; omega)
        · refine iff_of_true rfl ⟨by omega, by omega, ?_, ?_⟩
          · intro id hid
            simpa using List.all_eq_true.mp h3 id hid
          · intro si hsi
            simpa using List.all_eq_true.mp h4 si hsi
        · refine iff_of_false (by simp) ?_
          rintro ⟨-, -, -, hall⟩
          exact h4 (List.all_eq_true.mpr fun si hsi => by simpa using hall si hsi)
        · refine iff_of_false (by simp) ?_
          rintro ⟨-, -, hids, -⟩
          exact h3 (List.all_eq_true.mpr fun id hid => by simpa using hids id hid)
      · simp [hbh]

/-- C2, counterexample: with `block_height = 2^64 - 1` the `uint64_t` sum
`block_height + STAKE_VALIDATION_PERIOD` wraps around to a small number, so
`is_valid 10` returns `true` although the mathematical inequality
`block_height + STAKE_VALIDATION_PERIOD ≤ 10` fails. -/
theorem is_valid_wrap_counterexample :
    stake_transaction.is_valid cfg0 wrap_stake_tx 10 = true ∧
    ¬(wrap_stake_tx.block_height + cfg0.STAKE_VALIDATION_PERIOD ≤ 10 ∧
      10 < wrap_stake_tx.block_height + wrap_stake_tx.unlock_time +
            cfg0.TRUSTED_RESTAKING_PERIOD) := by
  constructor
  · decide
  · intro h
    have h1 := h.1
    have : (2 ^ 64 - 1 : Nat) + 6 ≤ 10 := h1
    omega

/-- C2, amended: provided neither `uint64_t` sum overflows
(`block_height + STAKE_VALIDATION_PERIOD < 2^64` and
`block_height + unlock_time + TRUSTED_RESTAKING_PERIOD < 2^64`),
`is_valid b` returns `true` iff
`block_height + STAKE_VALIDATION_PERIOD ≤ b` and
`b < block_height + unlock_time + TRUSTED_RESTAKING_PERIOD`. -/
theorem is_valid_iff (cfg : GraftConfig) (s : stake_transaction) (b : Nat)
    (h1 : s.block_height + cfg.STAKE_VALIDATION_PERIOD < U64)
    (h2 : s.block_height + s.unlock_time + cfg.TRUSTED_RESTAKING_PERIOD < U64) :
    s.is_valid cfg b = true ↔
      s.block_height + cfg.STAKE_VALIDATION_PERIOD ≤ b ∧
      b < s.block_height + s.unlock_time + cfg.TRUSTED_RESTAKING_PERIOD := by
  unfold stake_transaction.is_valid
  rw [Nat.mod_eq_of_lt h1, Nat.mod_eq_of_lt h2]
  constructor
  · intro h
    by_cases hb : b < s.block_height + cfg.STAKE_VALIDATION_PERIOD
    · simp [hb] at h
    · simp [hb] at h
      omega
  · intro ⟨ha, hb⟩
    have hlt : ¬ b < s.block_height + cfg.STAKE_VALIDATION_PERIOD := by omega
    have hge : ¬ (s.block_height + s.unlock_time + cfg.TRUSTED_RESTAKING_PERIOD ≤ b) := by
      omega
    simp [hlt, hge]

/-- C2 witness: a concrete stake (height 100, unlock 50) evaluated at block 120
through `is_valid_iff`. -/
theorem is_valid_iff_witness :
    ({ wrap_stake_tx with block_height := 100, unlock_time := 50 }.is_valid cfg0 120 = true ↔
      100 + cfg0.STAKE_VALIDATION_PERIOD ≤ 120 ∧
      120 < 100 + 50 + cfg0.TRUSTED_RESTAKING_PERIOD) :=
  is_valid_iff cfg0 { wrap_stake_tx with block_height := 100, unlock_time := 50 } 120
    (by decide) (by decide)

/-- Numeric value of `U64`, convenient for `omega`. -/
theorem U64_eq : U64 = 18446744073709551616 := by norm_num [U64]

/-- Shared characterization of the stake-transaction arm: the conditions
under which `process_stake_tx` produces a record, and the produced record. -/
theorem process_stake_tx_eq_some_aux (env : ProcessorEnv) (cfg : GraftConfig)
    (b : Nat) (tx : transaction)
    (h123 : tx.version ≠ 123) (h124 : tx.version ≠ 124)
    (st : stake_transaction) :
    process_stake_tx env cfg b tx = some st ↔
    ∃ ex W, env.get_graft_stake_tx_extra_from_extra tx = some ex ∧
      env.hex_to_pod ex.supernode_public_id = some W ∧
      env.check_key W = true ∧
      env.check_signature
        (env.cn_fast_hash (env.get_account_address_as_str ex.supernode_public_address
          ++ ":" ++ ex.supernode_public_id)) W ex.supernode_signature = true ∧
      cfg.STAKE_MIN_UNLOCK_TIME ≤ sub64 tx.unlock_time b ∧
      sub64 tx.unlock_time b ≤ cfg.STAKE_MAX_UNLOCK_TIME ∧
      get_transaction_amount env tx ex.supernode_public_address ex.tx_secret_key ≠ 0 ∧
      st = { amount := get_transaction_amount env tx
               ex.supernode_public_address ex.tx_secret_key
             block_height := b
             hash := env.get_transaction_prefix_hash tx
             unlock_time := sub64 tx.unlock_time b
             supernode_public_id := ex.supernode_public_id
             supernode_public_address := ex.supernode_public_address
             supernode_signature := ex.supernode_signature
             tx_secret_key := ex.tx_secret_key } := by
  unfold process_stake_tx
  rw [if_neg (fun h => h.elim h123 h124)]
  cases hex : env.get_graft_stake_tx_extra_from_extra tx with
  | none => simp [hex]
  | some ex =>
    cases hw : env.hex_to_pod ex.supernode_public_id with
    | none => simp [hex, hw]
    | some W =>
      simp only [hex, hw, Option.some.injEq, exists_and_left, exists_eq_left']
      split_ifs with h1 h2 h3 h4 h5
      · exact iff_of_false (by simp) (by rintro ⟨-, -, hmin, -⟩; omega)
      · exact iff_of_false (by simp) (by rintro ⟨-, -, -, hmax, -⟩; omega)
      · exact iff_of_false (by simp) (by rintro ⟨-, -, -, -, hamt, -⟩; exact hamt h5)
      · simp only [Option.some.injEq]
        constructor
        · intro he
          exact ⟨h1, h2, by omega, by omega, h5, he.symm⟩
        · rintro ⟨-, -, -, -, -, he⟩
          exact he.symm
      · exact iff_of_false (by simp) (by rintro ⟨-, hcs, -⟩; exact h2 hcs)
      · exact iff_of_false (by simp) (by rintro ⟨hck, -⟩; exact h1 hck)

/-- C3: a transaction whose version is neither 123 nor 124 is appended to the
storage as a stake transaction iff its extra carries a stake record, the
supernode public id decodes to a valid key, the signature verifies under that
key over the fast-hash of `address_string ++ ":" ++ id`, the adjusted unlock
time `tx.unlock_time - block_index` (wrapping `uint64_t` subtraction) lies in
`[STAKE_MIN_UNLOCK_TIME, STAKE_MAX_UNLOCK_TIME]`, and the decoded amount is
nonzero; the appended record has `block_height = block_index`, the
transaction's prefix hash, the decoded amount and the adjusted unlock time. -/
theorem process_stake_tx_iff (env : ProcessorEnv) (cfg : GraftConfig)
    (b : Nat) (tx : transaction)
    (h123 : tx.version ≠ 123) (h124 : tx.version ≠ 124)
    (st : stake_transaction) :
    process_stake_tx env cfg b tx = some st ↔
    ∃ ex W, env.get_graft_stake_tx_extra_from_extra tx = some ex ∧
      env.hex_to_pod ex.supernode_public_id = some W ∧
      env.check_key W = true ∧
      env.check_signature
        (env.cn_fast_hash (env.get_account_address_as_str ex.supernode_public_address
          ++ ":" ++ ex.supernode_public_id)) W ex.supernode_signature = true ∧
      cfg.STAKE_MIN_UNLOCK_TIME ≤ sub64 tx.unlock_time b ∧
      sub64 tx.unlock_time b ≤ cfg.STAKE_MAX_UNLOCK_TIME ∧
      get_transaction_amount env tx ex.supernode_public_address ex.tx_secret_key ≠ 0 ∧
      st = { amount := get_transaction_amount env tx
               ex.supernode_public_address ex.tx_secret_key
             block_height := b
             hash := env.get_transaction_prefix_hash tx
             unlock_time := sub64 tx.unlock_time b
             supernode_public_id := ex.supernode_public_id
             supernode_public_address := ex.supernode_public_address
             supernode_signature := ex.supernode_signature
             tx_secret_key := ex.tx_secret_key } :=
  process_stake_tx_eq_some_aux env cfg b tx h123 h124 st

/-- C3 witness: `tx0` is accepted at block 100 under `env1`, producing the
record `st0`, via `process_stake_tx_iff`. -/
theorem process_stake_tx_iff_witness :
    tx0.version ≠ 123 ∧ tx0.version ≠ 124 ∧
    process_stake_tx env1 cfg0 100 tx0 = some st0 :=
  ⟨by decide, by decide,
    (process_stake_tx_iff env1 cfg0 100 tx0 (by decide) (by decide) st0).mpr
      ⟨ex0, 42, rfl, rfl, rfl, rfl, by decide, by decide, by decide, by decide⟩⟩

/-- C10: when `tx.unlock_time < block_index` and
`block_index < 2^64 - STAKE_MAX_UNLOCK_TIME`, the wrapped `uint64_t`
difference `tx.unlock_time - block_index` exceeds `STAKE_MAX_UNLOCK_TIME`,
so the adjusted unlock time never lands inside the accepted range and the
transaction is rejected as a stake. -/
theorem stake_unlock_underflow (env : ProcessorEnv) (cfg : GraftConfig)
    (b : Nat) (tx : transaction)
    (hu : tx.unlock_time < b) (hb : b < U64 - cfg.STAKE_MAX_UNLOCK_TIME) :
    cfg.STAKE_MAX_UNLOCK_TIME < sub64 tx.unlock_time b ∧
    process_stake_tx env cfg b tx = none := by
  have h64 := U64_eq
  have hwrap : cfg.STAKE_MAX_UNLOCK_TIME < sub64 tx.unlock_time b := by
    unfold sub64
    rw [h64] at hb ⊢
    omega
  refine ⟨hwrap, ?_⟩
  by_cases hv : tx.version = 123 ∨ tx.version = 124
  · unfold process_stake_tx
    rw [if_pos hv]
  · cases hp : process_stake_tx env cfg b tx with
    | none => rfl
    | some st =>
      exfalso
      have h123 : tx.version ≠ 123 := fun h => hv (Or.inl h)
      have h124 : tx.version ≠ 124 := fun h => hv (Or.inr h)
      obtain ⟨-, -, -, -, -, -, -, hmax, -⟩ :=
        (process_stake_tx_eq_some_aux env cfg b tx h123 h124 st).mp hp
      omega

/-- C10 witness: a transaction with `unlock_time = 5` seen at block
`2^64 - 6000` wraps to a huge adjusted unlock time and is rejected. -/
theorem stake_unlock_underflow_witness :
    cfg0.STAKE_MAX_UNLOCK_TIME < sub64 5 (U64 - 6000) ∧
    process_stake_tx env1 cfg0 (U64 - 6000) { tx0 with unlock_time := 5 } = none :=
  stake_unlock_underflow env1 cfg0 (U64 - 6000) { tx0 with unlock_time := 5 }
    (by decide) (by decide)

/-- Helper: one pass of the per-transaction loop never touches the processed
chain. -/
theorem process_one_tx_processed_chain (env : ProcessorEnv) (cfg : GraftConfig)
    (b : Nat)
    (acc : StakeTransactionStorage × List disqualification ×
      List disqualification2_storage_item) (tx : transaction) :
    (process_one_tx env cfg b acc tx).1.processed_chain = acc.1.processed_chain := by
  unfold process_one_tx
  split_ifs
  · split <;> rfl
  · split <;> rfl
  · split
    · rfl
    · simp only [StakeTransactionStorage.add_tx]
      split <;> rfl

/-- Helper: the whole per-transaction loop never touches the processed
chain. -/
theorem fold_process_one_tx_processed_chain (env : ProcessorEnv)
    (cfg : GraftConfig) (b : Nat) (txs : List transaction)
    (acc : StakeTransactionStorage × List disqualification ×
      List disqualification2_storage_item) :
    (txs.foldl (process_one_tx env cfg b) acc).1.processed_chain =
      acc.1.processed_chain := by
  induction txs generalizing acc with
  | nil => rfl
  | cons t ts ih =>
    rw [List.foldl_cons, ih, process_one_tx_processed_chain]

/-- C4, counterexample: with the storage tip at block 5 but the BBL tip at
block 2, `process_block` at index 3 (≤ 5) skips the stake pass yet still
applies block 3 to the BBL, so the combined state changes. -/
theorem process_block_no_op_counterexample :
    3 ≤ sts0.get_last_processed_block_index ∧
    process_block env0 cfg0 3 blk0 99 (sts0, bbl0) ≠ (sts0, bbl0) := by
  constructor
  · decide
  · intro h
    have hb : (process_block env0 cfg0 3 blk0 99 (sts0, bbl0)).2 = bbl0 :=
      congrArg Prod.snd h
    exact absurd hb (by decide)

/-- C4, amended: for `idx ≤ STS.get_last_processed_block_index()` the stake
storage is left unchanged, and the BBL is also left unchanged provided
`idx ≤ BBL.block_height()`; when the BBL lags behind the storage the block is
still applied to it (the deliberate catch-up path of `synchronize`). -/
theorem process_block_no_op (env : ProcessorEnv) (cfg : GraftConfig)
    (idx : Nat) (blk : cblock) (hash : Nat)
    (st : StakeTransactionStorage × BlockchainBasedList)
    (h : idx ≤ st.1.get_last_processed_block_index) :
    (process_block env cfg idx blk hash st).1 = st.1 ∧
    (idx ≤ st.2.block_height → process_block env cfg idx blk hash st = st) := by
  have hs : process_block_stake_transaction env cfg idx blk hash st.1 = st.1 := by
    unfold process_block_stake_transaction
    rw [if_pos h]
  constructor
  · simp [process_block, hs]
  · intro hb
    simp [process_block, hs, process_block_blockchain_based_list,
      BlockchainBasedList.apply_block, if_pos hb]

/-- C4 witness: at index 3, with both tips at or above 3, `process_block`
leaves the state unchanged. -/
theorem process_block_no_op_witness :
    (process_block env0 cfg0 3 blk0 99 (sts0, bbl1)).1 = sts0 ∧
    (3 ≤ bbl1.block_height → process_block env0 cfg0 3 blk0 99 (sts0, bbl1) = (sts0, bbl1)) :=
  process_block_no_op env0 cfg0 3 blk0 99 (sts0, bbl1) (by decide)

/-- C5, counterexample: at a new block above the threshold, a failed
`get_transactions` call makes `process_block_stake_transaction` return
early, leaving the storage unchanged — the block is NOT recorded as
processed, contradicting the claim that `add_last_processed_block` is
executed in every fetch-problem case. -/
theorem fetch_failure_counterexample :
    sts0.get_last_processed_block_index < 6 ∧
    cfg0.STAKE_TRANSACTION_PROCESSING_DB_VERSION ≤ env0.hard_fork_version 6 ∧
    env0.get_transactions blk0.tx_hashes = none ∧
    process_block_stake_transaction env0 cfg0 6 blk0 99 sts0 = sts0 := by
  refine ⟨by decide, by decide, rfl, ?_⟩
  decide

/-- C5, amended: a successful `get_transactions` call — even one reporting
missed transaction hashes — never prevents the block from being recorded:
`add_last_processed_block(idx, hash)` still executes; only a failed
`get_transactions` call returns early without recording the block. -/
theorem partial_fetch_still_records (env : ProcessorEnv) (cfg : GraftConfig)
    (idx : Nat) (blk : cblock) (hash : Nat) (s : StakeTransactionStorage)
    (txs : List transaction) (missed : List Nat)
    (h1 : s.get_last_processed_block_index < idx)
    (h2 : cfg.STAKE_TRANSACTION_PROCESSING_DB_VERSION ≤ env.hard_fork_version idx)
    (h3 : env.get_transactions blk.tx_hashes = some (txs, missed)) :
    (process_block_stake_transaction env cfg idx blk hash s).processed_chain =
      (idx, hash) :: s.processed_chain := by
  unfold process_block_stake_transaction
  rw [if_neg (by omega), if_pos h2, h3]
  simp only [StakeTransactionStorage.add_last_processed_block,
    StakeTransactionStorage.update_supernode_stakes,
    StakeTransactionStorage.add_disquals, StakeTransactionStorage.add_disquals2,
    fold_process_one_tx_processed_chain]

/-- C5 witness: a fetch that reports one missed hash still records block 6
under an environment whose `get_transactions` succeeds. -/
theorem partial_fetch_still_records_witness :
    (process_block_stake_transaction
      { env0 with get_transactions := fun _ => some ([], [123]) }
      cfg0 6 blk0 99 sts0).processed_chain = (6, 99) :: sts0.processed_chain :=
  partial_fetch_still_records
    { env0 with get_transactions := fun _ => some ([], [123]) }
    cfg0 6 blk0 99 sts0 [] [123] (by decide) (by decide) rfl

/-- Helper: a filter shortens a list exactly when some element fails the
predicate. -/
theorem length_filter_ne_iff {α : Type} (p : α → Bool) (xs : List α) :
    (xs.filter p).length ≠ xs.length ↔ ∃ x ∈ xs, p x = false := by
  induction xs with
  | nil => simp
  | cons a as ih =>
    cases hp : p a with
    | false =>
      have hle := List.length_filter_le p as
      simp only [List.filter_cons, hp, Bool.false_eq_true, if_false, List.length_cons]
      constructor
      · intro _
        exact ⟨a, List.mem_cons_self a as, hp⟩
      · intro _
        omega
    | true =>
      simp only [List.filter_cons, hp, if_true, List.length_cons]
      constructor
      · intro hne
        obtain ⟨x, hx, hpx⟩ := ih.mp (by omega)
        exact ⟨x, List.mem_cons_of_mem a hx, hpx⟩
      · rintro ⟨x, hx, hpx⟩
        rcases List.mem_cons.mp hx with rfl | hx2
        · simp [hp] at hpx
        · have := ih.mpr ⟨x, hx2, hpx⟩
          omega

/-- Helper: popping the processed-chain tip deletes stake transactions
exactly when some stored stake transaction sits at the popped index. -/
theorem remove_tx_count_ne_iff (s : StakeTransactionStorage)
    (lpi lph : Nat) (rest : List (Nat × Nat))
    (hcc : s.processed_chain = (lpi, lph) :: rest) :
    (s.remove_last_processed_block.get_tx_count ≠ s.get_tx_count ↔
      ∃ t ∈ s.stake_txs, t.block_height = lpi) := by
  unfold StakeTransactionStorage.remove_last_processed_block
  rw [hcc]
  simp only [StakeTransactionStorage.get_tx_count]
  rw [length_filter_ne_iff]
  constructor
  · rintro ⟨t, ht, hpt⟩
    refine ⟨t, ht, ?_⟩
    simpa using hpt
  · rintro ⟨t, ht, hpt⟩
    refine ⟨t, ht, ?_⟩
    simpa using hpt

/-- Helper: the rollback loop on an empty processed chain stops at once. -/
theorem rollback_loop_nil (env : ProcessorEnv) (height : Nat)
    (s : StakeTransactionStorage) (l : BlockchainBasedList)
    (hc : s.processed_chain = []) :
    rollback_loop env height s l = .done s l := by
  rw [rollback_loop]
  split
  · rfl
  · rename_i lpi' lph' rest' heq
    rw [hc] at heq
    cases heq

/-- Helper: one unfolding of the rollback loop on a non-empty processed
chain. -/
theorem rollback_loop_cons (env : ProcessorEnv) (height : Nat)
    (s : StakeTransactionStorage) (l : BlockchainBasedList)
    (lpi lph : Nat) (rest : List (Nat × Nat))
    (hcc : s.processed_chain = (lpi, lph) :: rest) :
    rollback_loop env height s l =
      if lpi < height then
        match env.get_block_id_by_height lpi with
        | none => .dne s l
        | some bh =>
          if bh = lph then .done s l
          else rollback_loop env height (unroll_step s l).1 (unroll_step s l).2
      else rollback_loop env height (unroll_step s l).1 (unroll_step s l).2 := by
  rw [rollback_loop]
  split
  · rename_i heq
    rw [hcc] at heq
    cases heq
  · rename_i lpi' lph' rest' heq
    rw [hcc] at heq
    injection heq with h1 h2
    injection h1 with h3 h4
    subst h3 h4
    rfl

/-- C6: the rollback loop of `synchronize` stops exactly when the storage tip
(lpi, lph) satisfies `lpi < height` and the oracle's hash at `lpi` equals
`lph` (or the processed chain is empty); a `BLOCK_DNE` probe makes the whole
`synchronize` return without applying any forward blocks; otherwise one
unroll step removes the storage tip, clears the supernode-stake index iff the
removal deleted stake transactions, and removes the BBL tip iff
`BBL.block_height() = lpi`. -/
theorem rollback_loop_spec (env : ProcessorEnv) (height : Nat)
    (s : StakeTransactionStorage) (l : BlockchainBasedList) :
    (s.processed_chain = [] → rollback_loop env height s l = .done s l) ∧
    (∀ lpi lph rest, s.processed_chain = (lpi, lph) :: rest →
      (lpi < height → env.get_block_id_by_height lpi = some lph →
        rollback_loop env height s l = .done s l) ∧
      (lpi < height → env.get_block_id_by_height lpi = none →
        rollback_loop env height s l = .dne s l) ∧
      (∀ bh, lpi < height → env.get_block_id_by_height lpi = some bh → bh ≠ lph →
        rollback_loop env height s l =
          rollback_loop env height (unroll_step s l).1 (unroll_step s l).2) ∧
      (height ≤ lpi →
        rollback_loop env height s l =
          rollback_loop env height (unroll_step s l).1 (unroll_step s l).2) ∧
      (unroll_step s l).1.processed_chain = rest ∧
      ((unroll_step s l).1.supernode_stakes =
        if ∃ t ∈ s.stake_txs, t.block_height = lpi then none
        else s.supernode_stakes) ∧
      (unroll_step s l).2 =
        (if l.block_height = lpi then l.remove_latest_block else l)) ∧
    (∀ cfg s1 l1, rollback_loop env height s l = .dne s1 l1 →
      height ≠ 0 →
      ¬ env.hard_fork_version (height - 1) <
          cfg.STAKE_TRANSACTION_PROCESSING_DB_VERSION →
      synchronize_model env cfg height s l = (s1, l1)) := by
  refine ⟨rollback_loop_nil env height s l, ?_, ?_⟩
  · intro lpi lph rest hcc
    have hlpi : s.get_last_processed_block_index = lpi := by
      unfold StakeTransactionStorage.get_last_processed_block_index
      rw [hcc]
    refine ⟨?_, ?_, ?_, ?_, ?_, ?_, ?_⟩
    · intro hlt hh
      rw [rollback_loop_cons env height s l lpi lph rest hcc]
      simp [hlt, hh]
    · intro hlt hh
      rw [rollback_loop_cons env height s l lpi lph rest hcc]
      simp [hlt, hh]
    · intro bh hlt hh hne
      rw [rollback_loop_cons env height s l lpi lph rest hcc]
      simp [hlt, hh, hne]
    · intro hge
      rw [rollback_loop_cons env height s l lpi lph rest hcc]
      simp [Nat.not_lt.mpr hge]
    · simp only [unroll_step]
      split_ifs <;>
        simp [StakeTransactionStorage.clear_supernode_stakes,
          StakeTransactionStorage.remove_last_processed_block, hcc]
    · have hiff := remove_tx_count_ne_iff s lpi lph rest hcc
      simp only [unroll_step]
      by_cases hex : ∃ t ∈ s.stake_txs, t.block_height = lpi
      · rw [if_pos hex, if_pos (hiff.mpr hex)]
        rfl
      · rw [if_neg hex, if_neg (fun hne => hex (hiff.mp hne))]
        simp [StakeTransactionStorage.remove_last_processed_block, hcc]
    · simp only [unroll_step, hlpi]
  · intro cfg s1 l1 hdne h0 hver
    unfold synchronize_model
    rw [if_neg (by rintro (h | h); exacts [h0 h, hver h])]
    rw [hdne]

/-- C6 witness: with the oracle unable to produce block 5's hash, the
rollback loop over a storage whose tip is (5, 77) reports `BLOCK_DNE`. -/
theorem rollback_loop_spec_witness :
    rollback_loop env0 10 sts0 bbl1 = .dne sts0 bbl1 :=
  (((rollback_loop_spec env0 10 sts0 bbl1).2.1 5 77 [] (by decide)).2.1)
    (by decide) (by decide)

/-- Helper: for in-range operands the wrapping subtraction is plain
subtraction. -/
theorem sub64_eq_of_le (a b : Nat) (hb : b ≤ a) (ha : a < U64) :
    sub64 a b = a - b := by
  unfold sub64
  rw [U64_eq] at ha ⊢
  omega

/-- Helper: the forward loop processes at most `stop - i` blocks. -/
theorem forward_loop_count_le (env : ProcessorEnv) (cfg : GraftConfig) :
    ∀ n i stop st, stop - i ≤ n →
      (forward_loop env cfg i stop st).2 ≤ stop - i := by
  intro n
  induction n with
  | zero =>
    intro i stop st hle
    rw [forward_loop, dif_neg (by omega)]
    exact Nat.zero_le _
  | succ n ih =>
    intro i stop st hle
    rw [forward_loop]
    by_cases h : i < stop
    · rw [dif_pos h]
      cases hid : env.get_block_id_by_height i with
      | none => simp
      | some bh =>
        cases hbl : env.get_block_by_hash bh with
        | none => simp [hbl]
        | some blk =>
          simp only [hbl]
          have hrec := ih (i + 1) stop (process_block env cfg i blk bh st) (by omega)
          omega
    · rw [dif_neg h]
      exact Nat.zero_le _

/-- C8: every `synchronize` invocation is finite: with
`MAX_ITERATIONS_COUNT = 10000`, the forward-apply loop walks from `first` up
to `min(height, first + MAX_ITERATIONS_COUNT)`, so at most
`MAX_ITERATIONS_COUNT` blocks are processed per invocation, and a
`BLOCK_DNE` from the oracle breaks the loop immediately. -/
theorem synchronize_forward_bound (env : ProcessorEnv) (cfg : GraftConfig)
    (first height : Nat) (st : StakeTransactionStorage × BlockchainBasedList)
    (h1 : first ≤ height) (h2 : height < U64) :
    MAX_ITERATIONS_COUNT = 10000 ∧
    last_block_index_for_sync height first =
      min height (first + MAX_ITERATIONS_COUNT) ∧
    (forward_loop env cfg first (last_block_index_for_sync height first) st).2 ≤
      MAX_ITERATIONS_COUNT ∧
    (env.get_block_id_by_height first = none →
      forward_loop env cfg first (last_block_index_for_sync height first) st =
        (st, 0)) := by
  have hsub : sub64 height first = height - first := sub64_eq_of_le height first h1 h2
  have hstop : last_block_index_for_sync height first =
      min height (first + MAX_ITERATIONS_COUNT) := by
    unfold last_block_index_for_sync
    rw [hsub]
    split_ifs with h <;> omega
  refine ⟨rfl, hstop, ?_, ?_⟩
  · have hc := forward_loop_count_le env cfg
      (last_block_index_for_sync height first - first) first
      (last_block_index_for_sync height first) st (le_refl _)
    rw [hstop] at hc ⊢
    have hmax : MAX_ITERATIONS_COUNT = 10000 := rfl
    omega
  · intro hdne
    rw [forward_loop]
    by_cases h : first < last_block_index_for_sync height first
    · rw [dif_pos h, hdne]
    · rw [dif_neg h]

/-- C8 witness: from block 0 with oracle height 5 the loop bound is
`min 5 10000` and the all-failing oracle `env0` makes the loop break with no
blocks processed. -/
theorem synchronize_forward_bound_witness :
    MAX_ITERATIONS_COUNT = 10000 ∧
    last_block_index_for_sync 5 0 = min 5 (0 + MAX_ITERATIONS_COUNT) ∧
    (forward_loop env0 cfg0 0 (last_block_index_for_sync 5 0) (sts0, bbl0)).2 ≤
      MAX_ITERATIONS_COUNT ∧
    (env0.get_block_id_by_height 0 = none →
      forward_loop env0 cfg0 0 (last_block_index_for_sync 5 0) (sts0, bbl0) =
        ((sts0, bbl0), 0)) :=
  synchronize_forward_bound env0 cfg0 0 5 (sts0, bbl0) (by decide) (by decide)

/-- Helper: the need-update flag behaviour of the BBL observer impl: it is
left unchanged when the emission loop did not complete, and it is cleared
only when the loop completed without an exception. -/
theorem bbl_impl_flag (env : ProcessorEnv) (cfg : GraftConfig)
    (l : Option BlockchainBasedList) (depth : Nat) (flag : Bool) :
    ((invoke_update_blockchain_based_list_handler_impl env cfg l depth flag).2.2 = false →
      (invoke_update_blockchain_based_list_handler_impl env cfg l depth flag).1 = flag) ∧
    (flag = true →
      (invoke_update_blockchain_based_list_handler_impl env cfg l depth flag).1 = false →
      (invoke_update_blockchain_based_list_handler_impl env cfg l depth flag).2.2 = true) := by
  cases l with
  | none => simp [invoke_update_blockchain_based_list_handler_impl]
  | some lv =>
    by_cases h0 : lv.block_height = 0
    · simp [invoke_update_blockchain_based_list_handler_impl, h0]
    · cases hr : (bbl_update_go env lv 0
          (if cfg.SUPERNODE_HISTORY_SIZE <
              (if lv.history_depth < depth then lv.history_depth else depth)
            then cfg.SUPERNODE_HISTORY_SIZE
            else if lv.history_depth < depth then lv.history_depth else depth)).1 with
      | false =>
        constructor
        · intro _
          simp [invoke_update_blockchain_based_list_handler_impl, h0, hr]
        · intro hf h1
          exfalso
          simp [invoke_update_blockchain_based_list_handler_impl, h0, hr, hf] at h1
      | true =>
        constructor
        · intro hcontra
          exfalso
          simp [invoke_update_blockchain_based_list_handler_impl, h0, hr] at hcontra
        · intro _ _
          simp [invoke_update_blockchain_based_list_handler_impl, h0, hr]

/-- C9: for both `invoke_update_stakes_handler` and
`invoke_update_blockchain_based_list_handler`, the registered handler is
called only when the need-update flag is set or `force` is true; `depth > 1`
implies `force` for the BBL handler; and the need-update flag is cleared
only when the handler invocation completes without throwing — an exception
inside the handler (or while emitting) is caught and leaves the flag set. -/
theorem invoke_handlers_spec (env : ProcessorEnv) (cfg : GraftConfig) :
    (∀ hs sp ok flag force,
      (invoke_update_stakes_handler hs sp ok flag force).1 = true →
        flag = true ∨ force = true) ∧
    (∀ hs sp flag force,
      (invoke_update_stakes_handler hs sp false flag force).2 = flag) ∧
    (∀ hs sp ok flag force, flag = true →
      (invoke_update_stakes_handler hs sp ok flag force).2 = false →
        (invoke_update_stakes_handler hs sp ok flag force).1 = true ∧ ok = true) ∧
    (∀ hs l force depth flag,
      0 < (invoke_update_blockchain_based_list_handler env cfg hs l force depth flag).2.1 →
        flag = true ∨ force = true ∨ 1 < depth) ∧
    (∀ hs l force depth flag, 1 < depth →
      invoke_update_blockchain_based_list_handler env cfg hs l force depth flag =
        invoke_update_blockchain_based_list_handler env cfg hs l true depth flag) ∧
    (∀ hs l force depth flag,
      (invoke_update_blockchain_based_list_handler env cfg hs l force depth flag).2.2 =
          false →
        (invoke_update_blockchain_based_list_handler env cfg hs l force depth flag).1 =
          flag) ∧
    (∀ hs l force depth flag, flag = true →
      (invoke_update_blockchain_based_list_handler env cfg hs l force depth flag).1 =
          false →
        (invoke_update_blockchain_based_list_handler env cfg hs l force depth flag).2.2 =
          true) := by
  refine ⟨by decide, by decide, by decide, ?_, ?_, ?_, ?_⟩
  · intro hs l force depth flag hcalls
    by_cases hd : 1 < depth
    · exact Or.inr (Or.inr hd)
    · cases flag with
      | true => exact Or.inl rfl
      | false =>
        cases force with
        | true => exact Or.inr (Or.inl rfl)
        | false =>
          exfalso
          cases hs <;>
            simp [invoke_update_blockchain_based_list_handler, hd] at hcalls
  · intro hs l force depth flag hd
    unfold invoke_update_blockchain_based_list_handler
    simp [hd]
  · intro hs l force depth flag
    unfold invoke_update_blockchain_based_list_handler
    by_cases hhs : hs = false
    · rw [if_pos hhs]
      intro _
      rfl
    · rw [if_neg hhs]
      dsimp only
      by_cases hded : flag = false ∧ (if 1 < depth then true else force) = false
      · rw [if_pos hded]
        intro _
        rfl
      · rw [if_neg hded]
        exact (bbl_impl_flag env cfg l depth flag).1
  · intro hs l force depth flag hf
    unfold invoke_update_blockchain_based_list_handler
    by_cases hhs : hs = false
    · rw [if_pos hhs]
      intro h1
      rw [hf] at h1
      exact Bool.noConfusion h1
    · rw [if_neg hhs]
      dsimp only
      by_cases hded : flag = false ∧ (if 1 < depth then true else force) = false
      · rw [if_pos hded]
        intro h1
        rw [hf] at h1
        exact Bool.noConfusion h1
      · rw [if_neg hded]
        exact (bbl_impl_flag env cfg l depth flag).2 hf

/-- C9 witness: with the stakes flag set and no force, the stakes handler is
called, so the dedupe condition held. -/
theorem invoke_handlers_spec_witness :
    (invoke_update_stakes_handler true true true true false).1 = true ∧
    (true = true ∨ false = true) :=
  ⟨by decide, (invoke_handlers_spec env0 cfg0).1 true true true true false (by decide)⟩
